import Mathlib

/-!
Shallow embedding of the GenAI fallback orchestrator of
`imgprocalgs/algorithms/genai.py` (classes `GenAIAlgorithm`,
`GenAIEnhancement`, `GenAIGhibliConverter`) together with the object
state set up by `imgprocalgs/algorithms/base.py` (`BaseAlgorithm`).

External effects (environment variables, the `replicate` client, the
Hugging Face HTTP endpoint, URL fetches) are modelled as oracles in a
`World` record; one invocation of `process()` is a pure function from a
`World` and a `Request` to a `Trace` recording, in order, the provider
transport invocations, the URL fetches, the byte payloads written to the
destination path, and the printed diagnostics.  The PIL image codec and
the two fixed built-in filters (`ImageFilter.SHARPEN`,
`ImageFilter.SMOOTH_MORE`) are third-party collaborators; they are
modelled concretely as an injective byte encoding of grayscale pixel
grids and as the integer convolutions with the documented PIL kernels
(border pixels copied unchanged, values clamped to 0..255).
-/

namespace GenAI

/-- Transformation kind: `GenAIEnhancement` vs `GenAIGhibliConverter`. -/
inductive Kind where
  | enhance
  | ghibli
deriving DecidableEq

/-- A decoded in-memory image: rows of pixel values (each 0..255). -/
abbrev Img := List (List Nat)

/-- Byte encoding of one row: its length followed by its pixels. -/
def encodeRow (r : List Nat) : List Nat := r.length :: r

/-- Byte encoding of an image, modelling `PIL.Image.save`: the row count
followed by each encoded row. -/
def encodeImg (img : Img) : List Nat := img.length :: (img.map encodeRow).flatten

/-- Parse `n` encoded rows from a byte list, returning the rows and the
remaining bytes. -/
def decodeRows : Nat → List Nat → Option (List (List Nat) × List Nat)
  | 0, bs => some ([], bs)
  | _ + 1, [] => none
  | n + 1, len :: bs =>
      if len ≤ bs.length then
        match decodeRows n (bs.drop len) with
        | some (rs, rest) => some (bs.take len :: rs, rest)
        | none => none
      else none

/-- Byte decoding of an image, modelling `PIL.Image.open`: fails (PIL
raises) on bytes that are not a full valid encoding. -/
def decodeImg (bs : List Nat) : Option Img :=
  match bs with
  | [] => none
  | n :: rest =>
    match decodeRows n rest with
    | some (rs, []) => some rs
    | _ => none

/-- Clamp an integer convolution result into the byte range. -/
def clampByte (x : Int) : Nat := (min 255 (max 0 x)).toNat

/-- Pixel lookup, out-of-range coordinates give `none`. -/
def pxOpt (img : Img) (y x : Nat) : Option Nat :=
  match img.get? y with
  | some row => row.get? x
  | none => none

/-- Gather `n` consecutive pixels of row `y` starting at column `x`. -/
def gatherRow (img : Img) (y x : Nat) : Nat → Option (List Nat)
  | 0 => some []
  | m + 1 =>
    match pxOpt img y x with
    | some v =>
      match gatherRow img y (x + 1) m with
      | some vs => some (v :: vs)
      | none => none
    | none => none

/-- Gather a `rows × cols` block of pixels with top-left corner `(y, x)`,
row-major. -/
def gatherBlock (img : Img) (y x : Nat) (rows cols : Nat) : Option (List Nat) :=
  match rows with
  | 0 => some []
  | m + 1 =>
    match gatherRow img y x cols with
    | some r =>
      match gatherBlock img (y + 1) x m cols with
      | some rs => some (r ++ rs)
      | none => none
    | none => none

/-- Dot product of kernel coefficients with pixel values. -/
def dotK : List Int → List Nat → Int
  | a :: as, b :: bs => a * Int.ofNat b + dotK as bs
  | _, _ => 0

/-- One output pixel of a kernel filter: the scaled clamped convolution
when the whole neighbourhood is in range, the original pixel otherwise
(PIL leaves border pixels unchanged). -/
def convPixel (size : Nat) (coeffs : List Int) (scale : Int) (img : Img)
    (y x orig : Nat) : Nat :=
  let h := size / 2
  if y < h || x < h then orig
  else
    match gatherBlock img (y - h) (x - h) size size with
    | some ns => clampByte (dotK coeffs ns / scale)
    | none => orig

/-- A PIL built-in kernel filter (`ImageFilter.BuiltinFilter`): a
`size × size` integer kernel with a divisor, applied pixelwise. -/
def kernelFilter (size : Nat) (coeffs : List Int) (scale : Int) (img : Img) : Img :=
  (List.range img.length).map fun y =>
    match img.get? y with
    | some row =>
        (List.range row.length).map fun x =>
          convPixel size coeffs scale img y x (row.getD x 0)
    | none => []

/-- `PIL.ImageFilter.SHARPEN`: 3×3 kernel, divisor 16. -/
def SHARPEN : Img → Img :=
  kernelFilter 3 [-2, -2, -2, -2, 32, -2, -2, -2, -2] 16

/-- `PIL.ImageFilter.SMOOTH_MORE`: 5×5 kernel, divisor 100. -/
def SMOOTH_MORE : Img → Img :=
  kernelFilter 5
    [1, 1, 1, 1, 1,
     1, 5, 5, 5, 1,
     1, 5, 44, 5, 1,
     1, 5, 5, 5, 1,
     1, 1, 1, 1, 1] 100

/-- The fixed kind-specific filter of the local approximation: `SHARPEN` in
`GenAIEnhancement.process`, `SMOOTH_MORE` in `GenAIGhibliConverter.process`. -/
def localApprox (k : Kind) (img : Img) : Img :=
  match k with
  | .enhance => SHARPEN img
  | .ghibli => SMOOTH_MORE img

/-- Python truthiness of an optional string (`os.environ.get` result or
`self.user_text`): truthy exactly when present and non-empty. -/
def optTruthy : Option String → Bool
  | some s => s ≠ ""
  | none => false

/-- Prompt composition at the top of `GenAIGhibliConverter.process`:
`prompt = "ghibli style"`, then `prompt = f"{prompt}, {self.user_text}"`
when `self.user_text` is truthy. -/
def ghibliPrompt (userText : Option String) : String :=
  if optTruthy userText then "ghibli style" ++ ", " ++ userText.getD ""
  else "ghibli style"

/-- Diagnostics printed by `GenAIAlgorithm.mock_genai_process`: the
instruction line appears only when `self.user_text` is truthy. -/
def mockLogs (action : String) (userText : Option String) : List String :=
  ["Uploading image to GenAI Service...",
   "Calling GenAI service for: " ++ action]
  ++ (if optTruthy userText then
        ["With user instruction: " ++ userText.getD ""]
      else [])

/-- One element of a Replicate output (or the output itself when it is
not a list): either a structured object — with an optional `url`
attribute (absent or falsy collapses to `none`/`some ""`), an optional
readable stream (`read` attribute) carrying its bytes, and its Python
truthiness — or a plain string. -/
inductive RepElem where
  | obj (url : Option String) (stream : Option (List Nat)) (truthy : Bool)
  | str (s : String)
deriving DecidableEq

/-- Python truthiness of a result element. -/
def RepElem.isTruthy : RepElem → Bool
  | .obj _ _ t => t
  | .str s => s ≠ ""

/-- Shape of a value returned by `replicate.run`: a list of elements, a
single element, or `None`. -/
inductive RepOutput where
  | list (xs : List RepElem)
  | elem (e : RepElem)
  | none
deriving DecidableEq

/-- Python truthiness of a `replicate.run` result. -/
def RepOutput.isTruthy : RepOutput → Bool
  | .list xs => !xs.isEmpty
  | .elem e => e.isTruthy
  | .none => false

/-- The `read`-attribute test on a whole Replicate output, yielding the
stream bytes when present: lists and strings have no `read` attribute. -/
def RepOutput.readAttr : RepOutput → Option (List Nat)
  | .elem (.obj _ s _) => s
  | _ => Option.none

/-- Outcome of one HTTP call (`requests.post` / `requests.get`): either a
raised transport exception or a response with a status code and body. -/
inductive HttpOutcome where
  | raise (msg : String)
  | resp (code : Nat) (content : List Nat)
deriving DecidableEq

/-- Outcome of one `replicate.run` invocation: a raised exception or a
returned output value. -/
inductive RunOutcome where
  | raise (msg : String)
  | ok (out : RepOutput)
deriving DecidableEq

/-- One provider transport invocation, with the prompt it carried where
the request has one. -/
inductive ProviderCall where
  | hfGhibli (prompt : String)
  | repGhibli (prompt : String)
  | repEnhance
deriving DecidableEq

/-- The external world one `process()` call runs against: credential
environment variables, availability of the `replicate` library, and the
responses of each transport. -/
structure World where
  replicateAvailable : Bool
  replicateToken : Option String
  hfToken : Option String
  hfPost : String → HttpOutcome
  runGhibli : String → RunOutcome
  runEnhance : RunOutcome
  fetch : String → HttpOutcome

/-- The object state built by `BaseAlgorithm.__init__` /
`GenAIAlgorithm.__init__`: the two paths, the optional user text, and
the decoded in-memory source image `self.image`. -/
structure Request where
  image_path : String
  destination_path : String
  user_text : Option String
  image : Img
deriving DecidableEq

/-- Accumulated observable effects of a fragment of `process()`. -/
structure S where
  calls : List ProviderCall
  fetches : List String
  writes : List (List Nat)
  logs : List String
deriving DecidableEq

/-- Sequential composition of effect records. -/
def sAppend (a b : S) : S :=
  ⟨a.calls ++ b.calls, a.fetches ++ b.fetches, a.writes ++ b.writes,
   a.logs ++ b.logs⟩

/-- The empty effect record. -/
def emptyS : S := ⟨[], [], [], []⟩

/-- Full observable outcome of one `process()` invocation, together with
the object state when it returns. -/
structure Trace where
  calls : List ProviderCall
  fetches : List String
  writes : List (List Nat)
  logs : List String
  finalReq : Request
deriving DecidableEq

/-- Package an effect record and the final object state into a trace. -/
def mkTrace (s : S) (req : Request) : Trace :=
  ⟨s.calls, s.fetches, s.writes, s.logs, req⟩

/-- Append one diagnostic line. -/
def logAdd (s : S) (m : String) : S := { s with logs := s.logs ++ [m] }

/-- The `except Exception` handler shared by both Replicate blocks:
`print(f"Replicate API failed: {e}. Falling back to mock.")`. -/
def catchLog (s : S) (m : String) : S :=
  logAdd s ("Replicate API failed: " ++ m ++ ". Falling back to mock.")

/-- The `except Exception` handler of the Hugging Face block:
`print(f"Hugging Face API request failed: {e}")`. -/
def hfCatch (s : S) (m : String) : S :=
  logAdd s ("Hugging Face API request failed: " ++ m)

/-- `GenAIAlgorithm.download_and_save_image(url)`: fetch the URL; on
status 200 decode the body (PIL raises on undecodable bytes) and save
the re-encoded image; otherwise raise.  Returns the effects and the
raised exception message, if any. -/
def downloadAndSave (w : World) (s : S) (url : String) : S × Option String :=
  let s := { s with
    logs := s.logs ++ ["Downloading result from " ++ url ++ "..."],
    fetches := s.fetches ++ [url] }
  match w.fetch url with
  | .raise m => (s, some m)
  | .resp code content =>
    if code = 200 then
      match decodeImg content with
      | some img =>
          ({ s with writes := s.writes ++ [encodeImg img],
                    logs := s.logs ++ ["Image saved to destination"] },
           Option.none)
      | Option.none => (s, some "cannot identify image file")
    else (s, some ("Failed to download image from " ++ url))

/-- `GenAIAlgorithm.download_and_save_image` applied to a value that is
not a string (Ghibli lists / structured objects reach it only via
strings, but `GenAIEnhancement` passes the raw output): `requests.get`
raises on a non-URL argument, before any fetch happens. -/
def downloadNonUrl (s : S) : S × Option String :=
  (logAdd s "Downloading result from <non-url value>...",
   some "invalid URL argument")

/-- `GenAIAlgorithm.save_file_output(file_output)`: write the raw bytes of the stream to the destination path, with no decoding. -/
def saveFileOutput (s : S) (bytes : List Nat) : S :=
  { s with writes := s.writes ++ [bytes],
           logs := s.logs ++ ["Saving result to destination...",
                              "Image saved to destination"] }

/-- Resumption after a possibly-raising `download_and_save_image` call
inside a Replicate `try` block: a normal return reaches the `return`
statement (`true`), a raised exception is caught by the enclosing
`except Exception` handler and the mock fallback follows (`false`). -/
def afterDownload (res : S × Option String) : S × Bool :=
  match res with
  | (s1, Option.none) => (s1, true)
  | (s1, some m) => (catchLog s1 m, false)

/-- Lines 150–157 of `GenAIGhibliConverter.process` applied to a truthy
selected `result`: a truthy `url` attribute is checked first, then a
`read` attribute, then a plain string; a truthy result of any other
shape reaches the bare `return` with nothing written. -/
def handleResultElem (w : World) (s0 : S) (r : RepElem) : S × Bool :=
  if r.isTruthy then
    match r with
    | .obj (some u) st _ =>
      if u ≠ "" then afterDownload (downloadAndSave w s0 u)
      else
        match st with
        | some b => (saveFileOutput s0 b, true)
        | Option.none => (s0, true)
    | .obj Option.none st _ =>
      match st with
      | some b => (saveFileOutput s0 b, true)
      | Option.none => (s0, true)
    | .str u => afterDownload (downloadAndSave w s0 u)
  else (s0, false)

/-- Lines 143–157 of `GenAIGhibliConverter.process`: select `result`
from the Replicate output (first element of a non-empty list, else the
output itself when truthy), then run the `if result:` dispatch on it. -/
def repGhibliHandle (w : World) (s0 : S) (output : RepOutput) : S × Bool :=
  match output with
  | .list (x :: _) => handleResultElem w s0 x
  | .list [] => (s0, false)
  | .elem e => if e.isTruthy then handleResultElem w s0 e else (s0, false)
  | .none => (s0, false)

/-- Lines 100–122 of `GenAIGhibliConverter.process`: the Hugging Face
attempt.  Skipped without effect when the token is not truthy; otherwise
one POST of the prompt; on status 200 the body is decoded (a decode
failure is a raised exception caught by the same handler) and the
re-encoded image is written; second component `true` means `return`. -/
def hfPhase (w : World) (prompt : String) : S × Bool :=
  if optTruthy w.hfToken then
    let s0 : S :=
      ⟨[ProviderCall.hfGhibli prompt], [], [],
       ["Using Hugging Face Inference API for Ghibli Conversion..."]⟩
    match w.hfPost prompt with
    | .raise m => (hfCatch s0 m, false)
    | .resp code content =>
      if code = 200 then
        match decodeImg content with
        | some img =>
            ({ s0 with writes := s0.writes ++ [encodeImg img],
                       logs := s0.logs ++
                         ["Ghibli style image saved to destination"] },
             true)
        | Option.none => (hfCatch s0 "cannot identify image file", false)
      else
        (logAdd s0 ("Hugging Face API failed: " ++ toString code), false)
  else (emptyS, false)

/-- Lines 124–162 of `GenAIGhibliConverter.process`: the Replicate
attempt.  Skipped when the library is unavailable (`ImportError: pass`)
or the token is not truthy; a raised `replicate.run` is absorbed by the
`except` handler. -/
def repGhibliPhase (w : World) (prompt : String) : S × Bool :=
  if !w.replicateAvailable then (emptyS, false)
  else if optTruthy w.replicateToken then
    let s0 : S :=
      ⟨[ProviderCall.repGhibli prompt], [], [],
       ["Using Replicate API for Ghibli Conversion..."]⟩
    match w.runGhibli prompt with
    | .raise m => (catchLog s0 m, false)
    | .ok output => repGhibliHandle w s0 output
  else (emptyS, false)

/-- Lines 74–80 of `GenAIEnhancement.process`: when the output is
truthy, a `read` attribute wins, otherwise the whole output is handed to
`download_and_save_image` (which raises unless it is a string URL);
`return` follows either branch unless an exception escaped to the
enclosing `except`. -/
def enhanceHandle (w : World) (s0 : S) (output : RepOutput) : S × Bool :=
  if output.isTruthy then
    match output.readAttr with
    | some b => (saveFileOutput s0 b, true)
    | Option.none =>
      match output with
      | .elem (.str u) => afterDownload (downloadAndSave w s0 u)
      | _ => afterDownload (downloadNonUrl s0)
  else (s0, false)

/-- Lines 57–84 of `GenAIEnhancement.process`: the Replicate attempt.
Skipped when the library is unavailable or the token is not truthy. -/
def enhancePhase (w : World) : S × Bool :=
  if !w.replicateAvailable then (emptyS, false)
  else if optTruthy w.replicateToken then
    let s0 : S :=
      ⟨[ProviderCall.repEnhance], [], [],
       ["Using Replicate API for Image Enhancement..."]⟩
    match w.runEnhance with
    | .raise m => (catchLog s0 m, false)
    | .ok output => enhanceHandle w s0 output
  else (emptyS, false)

/-- Lines 86–90 of `GenAIEnhancement.process`: the mock fallback.
`mock_genai_process` returns a copy of the loaded source image, the
fixed `SHARPEN` filter is applied to that copy, and the result is saved. -/
def enhanceMock (img : Img) (userText : Option String) : S :=
  ⟨[], [], [encodeImg (SHARPEN img)],
   mockLogs "Image Enhancement" userText ++
     ["Enhanced image saved to destination"]⟩

/-- Lines 164–168 of `GenAIGhibliConverter.process`: the mock fallback
with the fixed `SMOOTH_MORE` filter. -/
def ghibliMock (img : Img) (userText : Option String) : S :=
  ⟨[], [], [encodeImg (SMOOTH_MORE img)],
   mockLogs "Convert to Ghibli Style" userText ++
     ["Ghibli style image saved to destination"]⟩

/-- `GenAIEnhancement.process` in full: the Replicate attempt, then the
mock fallback unless the attempt `return`ed.  The object fields are
never reassigned, so the final object state is the incoming one. -/
def processEnhance (w : World) (req : Request) : Trace :=
  match enhancePhase w with
  | (s, true) => mkTrace s req
  | (s, false) => mkTrace (sAppend s (enhanceMock req.image req.user_text)) req

/-- `GenAIGhibliConverter.process` in full: prompt composition, the
Hugging Face attempt, the Replicate attempt, then the mock fallback
unless an attempt `return`ed.  The prompt is computed once at the top of
the method; being pure, its two uses below receive the same value. -/
def processGhibli (w : World) (req : Request) : Trace :=
  match hfPhase w (ghibliPrompt req.user_text) with
  | (s1, true) => mkTrace s1 req
  | (s1, false) =>
    match repGhibliPhase w (ghibliPrompt req.user_text) with
    | (s2, true) => mkTrace (sAppend s1 s2) req
    | (s2, false) =>
      mkTrace (sAppend (sAppend s1 s2) (ghibliMock req.image req.user_text)) req

/-- Dispatch of `main()` over `--method`: `enhance` runs
`GenAIEnhancement.process`, `ghibli` runs `GenAIGhibliConverter.process`. -/
def processKind (k : Kind) (w : World) (req : Request) : Trace :=
  match k with
  | .enhance => processEnhance w req
  | .ghibli => processGhibli w req

/-- The prompt carried by a provider transport invocation, when it has
one. -/
def promptOf : ProviderCall → Option String
  | .hfGhibli p => some p
  | .repGhibli p => some p
  | .repEnhance => Option.none

/-- A Hugging Face attempt outcome that fails to produce a written
payload: a raised request, a non-200 status, or an undecodable 200 body. -/
def hfOutcomeFails : HttpOutcome → Bool
  | .raise _ => true
  | .resp code content => code ≠ 200 || (decodeImg content).isNone

/-! Helper lemmas about the effect records produced by the pieces of
`process()`. -/

theorem afterDownload_calls (res : S × Option String) :
    ((afterDownload res).1).calls = res.1.calls := by
  rcases res with ⟨s, exn⟩
  cases exn <;> rfl

theorem downloadAndSave_calls (w : World) (s : S) (u : String) :
    ((downloadAndSave w s u).1).calls = s.calls := by
  unfold downloadAndSave
  cases w.fetch u with
  | raise m => rfl
  | resp code content =>
    by_cases hc : code = 200
    · simp only [hc, if_true]
      cases decodeImg content <;> rfl
    · simp only [hc, if_false]

theorem handleResultElem_calls (w : World) (s0 : S) (r : RepElem) :
    ((handleResultElem w s0 r).1).calls = s0.calls := by
  unfold handleResultElem
  cases r with
  | str u =>
    by_cases ht : (RepElem.str u).isTruthy
    · simp only [ht, if_true, afterDownload_calls, downloadAndSave_calls]
    · simp [ht]
  | obj url st t =>
    cases t with
    | false => rfl
    | true =>
      cases url with
      | none => cases st <;> rfl
      | some u =>
        by_cases hu : u = ""
        · subst hu
          cases st <;> rfl
        · simp only [RepElem.isTruthy, if_true, ne_eq, hu, not_false_iff,
            afterDownload_calls, downloadAndSave_calls]

theorem repGhibliHandle_calls (w : World) (s0 : S) (out : RepOutput) :
    ((repGhibliHandle w s0 out).1).calls = s0.calls := by
  unfold repGhibliHandle
  cases out with
  | list xs => cases xs with
    | nil => rfl
    | cons x l => exact handleResultElem_calls w s0 x
  | elem e =>
    by_cases ht : e.isTruthy
    · simp only [ht, if_true, handleResultElem_calls]
    · simp [ht]
  | none => rfl

theorem hfPhase_calls (w : World) (p : String) :
    (hfPhase w p).1.calls = [] ∨
      (hfPhase w p).1.calls = [ProviderCall.hfGhibli p] := by
  unfold hfPhase
  by_cases ht : optTruthy w.hfToken
  · simp only [ht, if_true]
    cases w.hfPost p with
    | raise m => right; rfl
    | resp code content =>
      by_cases hc : code = 200
      · simp only [hc, if_true]
        cases decodeImg content with
        | some i => right; rfl
        | none => right; rfl
      · simp only [hc, if_false]
        right; rfl
  · simp only [ht, if_false]
    left; rfl

theorem repGhibliPhase_calls (w : World) (p : String) :
    (repGhibliPhase w p).1.calls = [] ∨
      (repGhibliPhase w p).1.calls = [ProviderCall.repGhibli p] := by
  unfold repGhibliPhase
  cases w.replicateAvailable with
  | false => left; rfl
  | true =>
    by_cases ht : optTruthy w.replicateToken
    · simp only [ht, if_true, Bool.not_true, Bool.false_eq_true, if_false]
      cases w.runGhibli p with
      | raise m => right; rfl
      | ok out => right; rw [repGhibliHandle_calls]
    · simp only [ht, Bool.not_true, Bool.false_eq_true, if_false]
      left; rfl

/-- Characterisation of a failed Hugging Face attempt: the token is
truthy but the POST raises, returns a non-200 status, or returns a
200 body PIL cannot decode.  No payload is written, no `return` is
taken, and exactly the one POST was recorded. -/
theorem hfPhase_fails (w : World) (p : String)
    (ht : optTruthy w.hfToken = true)
    (hf : hfOutcomeFails (w.hfPost p) = true) :
    (hfPhase w p).2 = false ∧
    (hfPhase w p).1.calls = [ProviderCall.hfGhibli p] ∧
    (hfPhase w p).1.writes = [] := by
  unfold hfPhase
  simp only [ht, if_true]
  cases h : w.hfPost p with
  | raise m => exact ⟨rfl, rfl, rfl⟩
  | resp code content =>
    unfold hfOutcomeFails at hf
    rw [h] at hf
    simp only [Bool.or_eq_true, decide_eq_true_eq,
      Option.isNone_iff_eq_none] at hf
    by_cases hc : code = 200
    · subst hc
      have hd : decodeImg content = Option.none := by
        rcases hf with hf | hf
        · exact absurd rfl hf
        · exact hf
      simp [hd, hfCatch, logAdd]
    · simp [hc, hfCatch, logAdd]

/-! Concrete worlds and requests used to evaluate the pipeline at
specific inputs. -/

/-- A request as built by the test of the repository itself,
`TestGenAI.test_ghibli`, with a tiny concrete decoded image. -/
def reqBird : Request :=
  ⟨"tests/data/bird.jpg", "tests/data/output_genai_ghibli.jpg",
   Option.none, [[4]]⟩

/-- A world with only `REPLICATE_API_TOKEN` set in which `replicate.run`
returns a truthy structured object with neither a `url` attribute nor a
`read` attribute and which is not a string (e.g. a dict). -/
def wUnrecognized : World :=
  ⟨true, some "token", Option.none,
   fun _ => HttpOutcome.raise "unreachable",
   fun _ => RunOutcome.ok (RepOutput.elem (RepElem.obj Option.none Option.none true)),
   RunOutcome.raise "unreachable",
   fun _ => HttpOutcome.raise "unreachable"⟩

/-- A world with only `REPLICATE_API_TOKEN` set in which `replicate.run`
returns a truthy structured object whose `url` attribute exists but is
falsy (the empty string) and which has no `read` attribute. -/
def wFalsyUrl : World :=
  ⟨true, some "token", Option.none,
   fun _ => HttpOutcome.raise "unreachable",
   fun _ => RunOutcome.ok (RepOutput.elem (RepElem.obj (some "") Option.none true)),
   RunOutcome.raise "unreachable",
   fun _ => HttpOutcome.raise "unreachable"⟩

/-- A world with no provider credential configured at all. -/
def wNoCreds : World :=
  ⟨true, Option.none, Option.none,
   fun _ => HttpOutcome.raise "unreachable",
   fun _ => RunOutcome.raise "unreachable",
   RunOutcome.raise "unreachable",
   fun _ => HttpOutcome.raise "unreachable"⟩

/-! The claims. -/

/-- C1: the claim states that for every valid request and credential
configuration `process()` writes a readable output file at the
destination path.  The code violates it: for kind GhibliStyle with a
Replicate credential, when `replicate.run` returns a truthy result that
has no truthy `url` attribute, no `read` attribute and is not a string,
the `return` on line 157 executes with nothing written — `process()`
returns normally and the destination file is never produced. -/
theorem ghibli_unrecognized_result_no_write :
    (processGhibli wUnrecognized reqBird).writes = [] := by decide

/-- C2: the claim states that exactly one payload is written per
invocation, never zero.  The code violates it: a truthy Replicate result
whose `url` attribute is falsy and which has no `read` attribute reaches
the bare `return` on line 157 with zero writes. -/
theorem ghibli_falsy_url_no_write :
    ¬ (processGhibli wFalsyUrl reqBird).writes.length = 1 := by decide

/-- C4: with neither `HUGGING_FACE_TOKEN` nor `REPLICATE_API_TOKEN` set,
`process()` performs zero provider transport invocations (and zero URL
fetches) and writes exactly the deterministic local-approximation
result for the requested kind. -/
theorem skip_on_absence (k : Kind) (w : World) (req : Request)
    (h1 : w.hfToken = Option.none) (h2 : w.replicateToken = Option.none) :
    (processKind k w req).calls = [] ∧
    (processKind k w req).fetches = [] ∧
    (processKind k w req).writes = [encodeImg (localApprox k req.image)] := by
  cases k with
  | enhance =>
    have hp : enhancePhase w = (emptyS, false) := by
      unfold enhancePhase
      cases w.replicateAvailable <;> simp [h2, optTruthy, emptyS]
    simp [processKind, processEnhance, hp, mkTrace, sAppend, emptyS,
      enhanceMock, localApprox]
  | ghibli =>
    have hh : hfPhase w (ghibliPrompt req.user_text) = (emptyS, false) := by
      unfold hfPhase
      simp [h1, optTruthy, emptyS]
    have hr : repGhibliPhase w (ghibliPrompt req.user_text) = (emptyS, false) := by
      unfold repGhibliPhase
      cases w.replicateAvailable <;> simp [h2, optTruthy, emptyS]
    simp [processKind, processGhibli, hh, hr, mkTrace, sAppend, emptyS,
      ghibliMock, localApprox]

/-- C4 witness: the theorem applied at a concrete credential-free world. -/
theorem skip_on_absence_witness :
    (processKind Kind.ghibli wNoCreds reqBird).calls = [] ∧
    (processKind Kind.ghibli wNoCreds reqBird).fetches = [] ∧
    (processKind Kind.ghibli wNoCreds reqBird).writes =
      [encodeImg (localApprox Kind.ghibli reqBird.image)] :=
  skip_on_absence Kind.ghibli wNoCreds reqBird rfl rfl

/-- C8: the local approximation writes exactly the fixed kind-specific
filter (`SHARPEN` for Enhance, `SMOOTH_MORE` for GhibliStyle) applied to
the loaded source image, and its written bytes are a pure function of
the source image and the kind: two applications — even with different
user instructions in scope — produce byte-identical output. -/
theorem local_approximation_pure (img : Img) (u v : Option String) :
    (enhanceMock img u).writes = [encodeImg (localApprox Kind.enhance img)] ∧
    (ghibliMock img u).writes = [encodeImg (localApprox Kind.ghibli img)] ∧
    (enhanceMock img u).writes = (enhanceMock img v).writes ∧
    (ghibliMock img u).writes = (ghibliMock img v).writes :=
  ⟨rfl, rfl, rfl, rfl⟩

/-- C9: `process()` never mutates the consumed request: the object state
after any invocation — `image_path`, `destination_path`, `user_text` and
the decoded in-memory source image — equals the incoming one; the local
fallback filters a copy, never the original. -/
theorem process_preserves_request (k : Kind) (w : World) (req : Request) :
    (processKind k w req).finalReq = req := by
  cases k with
  | enhance =>
    unfold processKind processEnhance
    rcases hE : enhancePhase w with ⟨s, d⟩
    cases d <;> rfl
  | ghibli =>
    unfold processKind processGhibli
    rcases hH : hfPhase w (ghibliPrompt req.user_text) with ⟨s1, d1⟩
    cases d1 with
    | true => rfl
    | false =>
      rcases hR : repGhibliPhase w (ghibliPrompt req.user_text) with ⟨s2, d2⟩
      cases d2 <;> rfl

/-- A world with both credentials set whose Hugging Face endpoint
answers 500 and whose Replicate model returns a truthy result of
unrecognized shape. -/
def wPriorityGap : World :=
  ⟨true, some "rep-token", some "hf-token",
   fun _ => HttpOutcome.resp 500 [],
   fun _ => RunOutcome.ok (RepOutput.elem (RepElem.obj Option.none Option.none true)),
   RunOutcome.raise "unreachable",
   fun _ => HttpOutcome.raise "unreachable"⟩

/-- C3 counterexample: both credentials are present, the higher-priority
Hugging Face attempt fails (status 500), and the lower-priority
Replicate attempt yields a truthy result of unrecognized shape — per the
claim the written output then had to be the local-approximation
result, but the code writes nothing at all. -/
theorem priority_fallback_counterexample :
    optTruthy wPriorityGap.hfToken = true ∧
    optTruthy wPriorityGap.replicateToken = true ∧
    hfOutcomeFails (wPriorityGap.hfPost (ghibliPrompt reqBird.user_text)) = true ∧
    ¬ (processGhibli wPriorityGap reqBird).writes =
        [encodeImg (SMOOTH_MORE reqBird.image)] ∧
    (processGhibli wPriorityGap reqBird).writes = [] := by decide

/-- C3 (amended): for kind GhibliStyle with both credentials present,
the Hugging Face attempt is made before the Replicate attempt, and
whenever it fails it contributes no written payload: everything written
comes from the Replicate attempt, followed by the local approximation
exactly when that attempt does not `return` — never from the Hugging
Face response.  (When Replicate yields a truthy result of unrecognized
shape, it `return`s without writing, so nothing at all is written.) -/
theorem priority_order_amended (w : World) (req : Request)
    (ht : optTruthy w.hfToken = true)
    (htr : optTruthy w.replicateToken = true)
    (hf : hfOutcomeFails (w.hfPost (ghibliPrompt req.user_text)) = true) :
    (processGhibli w req).calls =
      ProviderCall.hfGhibli (ghibliPrompt req.user_text) ::
        (repGhibliPhase w (ghibliPrompt req.user_text)).1.calls ∧
    (processGhibli w req).writes =
      (repGhibliPhase w (ghibliPrompt req.user_text)).1.writes ++
        (if (repGhibliPhase w (ghibliPrompt req.user_text)).2 then []
         else [encodeImg (SMOOTH_MORE req.image)]) := by
  obtain ⟨h2, hcalls, hwrites⟩ :=
    hfPhase_fails w (ghibliPrompt req.user_text) ht hf
  unfold processGhibli
  rcases hH : hfPhase w (ghibliPrompt req.user_text) with ⟨s1, d1⟩
  rw [hH] at h2 hcalls hwrites
  dsimp only at h2 hcalls hwrites
  subst h2
  rcases hR : repGhibliPhase w (ghibliPrompt req.user_text) with ⟨s2, d2⟩
  cases d2 <;>
    simp [mkTrace, sAppend, hcalls, hwrites, ghibliMock]

/-- A world whose Hugging Face endpoint is down and whose Replicate
model answers with a readable stream. -/
def wHfDown : World :=
  ⟨true, some "rep-token", some "hf-token",
   fun _ => HttpOutcome.resp 500 [],
   fun _ => RunOutcome.ok (RepOutput.elem (RepElem.obj Option.none (some [1, 1, 9]) true)),
   RunOutcome.raise "unreachable",
   fun _ => HttpOutcome.raise "unreachable"⟩

/-- C3 witness: the amended theorem applied at a concrete world where
the Hugging Face attempt fails and Replicate succeeds via a stream. -/
theorem priority_order_amended_witness :
    (processGhibli wHfDown reqBird).calls =
      ProviderCall.hfGhibli (ghibliPrompt reqBird.user_text) ::
        (repGhibliPhase wHfDown (ghibliPrompt reqBird.user_text)).1.calls ∧
    (processGhibli wHfDown reqBird).writes =
      (repGhibliPhase wHfDown (ghibliPrompt reqBird.user_text)).1.writes ++
        (if (repGhibliPhase wHfDown (ghibliPrompt reqBird.user_text)).2 then []
         else [encodeImg (SMOOTH_MORE reqBird.image)]) :=
  priority_order_amended wHfDown reqBird (by decide) (by decide) (by decide)

/-- A world whose Replicate Ghibli model returns an object exposing both
a truthy `url` field and a readable stream, with the two payloads
distinguishable. -/
def wBothAttrs : World :=
  ⟨true, some "rep-token", Option.none,
   fun _ => HttpOutcome.raise "unreachable",
   fun _ => RunOutcome.ok
     (RepOutput.elem (RepElem.obj (some "https://img.example/u1") (some [1, 1, 9]) true)),
   RunOutcome.raise "unreachable",
   fun u => if u = "https://img.example/u1" then HttpOutcome.resp 200 [1, 1, 5]
            else HttpOutcome.raise "bad url"⟩

/-- C5 counterexample: the Replicate result exposes a readable stream
(bytes `[1,1,9]`) and a URL field; the claim requires the stream to be
used with highest priority, but `GenAIGhibliConverter` checks the `url`
attribute first: it performs the fetch and writes the fetched payload,
not the stream payload. -/
theorem ghibli_url_over_stream_counterexample :
    wBothAttrs.runGhibli (ghibliPrompt reqBird.user_text) =
      RunOutcome.ok
        (RepOutput.elem (RepElem.obj (some "https://img.example/u1") (some [1, 1, 9]) true)) ∧
    (processGhibli wBothAttrs reqBird).fetches = ["https://img.example/u1"] ∧
    (processGhibli wBothAttrs reqBird).writes = [[1, 1, 5]] ∧
    ¬ (processGhibli wBothAttrs reqBird).writes = [[1, 1, 9]] := by decide

/-- C5 (amended): the stream-first rule holds only in the enhancement
path, where a result exposing a `read` attribute has its raw bytes
written (without decoding) regardless of any URL field; in the Ghibli
path a truthy `url` field is checked first — a result carrying both is
handled exactly as if it had no stream, by fetching the URL — and the
stream is used only when no truthy `url` field exists. -/
theorem normalizer_shape_priority_amended (w : World) (s0 : S)
    (u0 : Option String) (u : String) (b : List Nat) (t : Bool)
    (hu : u ≠ "") :
    enhanceHandle w s0 (RepOutput.elem (RepElem.obj u0 (some b) true)) =
      (saveFileOutput s0 b, true) ∧
    repGhibliHandle w s0 (RepOutput.elem (RepElem.obj (some u) (some b) t)) =
      repGhibliHandle w s0 (RepOutput.elem (RepElem.obj (some u) Option.none t)) ∧
    repGhibliHandle w s0 (RepOutput.elem (RepElem.obj Option.none (some b) true)) =
      (saveFileOutput s0 b, true) := by
  refine ⟨rfl, ?_, rfl⟩
  cases t with
  | false => rfl
  | true => simp [repGhibliHandle, handleResultElem, RepElem.isTruthy, hu]

/-- C5 witness: the amended theorem applied at the concrete
both-attributes world. -/
theorem normalizer_shape_priority_amended_witness :
    enhanceHandle wBothAttrs emptyS
        (RepOutput.elem (RepElem.obj (some "https://img.example/u1") (some [7]) true)) =
      (saveFileOutput emptyS [7], true) ∧
    repGhibliHandle wBothAttrs emptyS
        (RepOutput.elem (RepElem.obj (some "https://img.example/u1") (some [7]) true)) =
      repGhibliHandle wBothAttrs emptyS
        (RepOutput.elem (RepElem.obj (some "https://img.example/u1") Option.none true)) ∧
    repGhibliHandle wBothAttrs emptyS
        (RepOutput.elem (RepElem.obj Option.none (some [7]) true)) =
      (saveFileOutput emptyS [7], true) :=
  normalizer_shape_priority_amended wBothAttrs emptyS
    (some "https://img.example/u1") "https://img.example/u1" [7] true
    (by decide)

/-- A world whose Replicate enhancement model returns a non-empty list
whose first element is a readable stream. -/
def wEnhanceList : World :=
  ⟨true, some "rep-token", Option.none,
   fun _ => HttpOutcome.raise "unreachable",
   fun _ => RunOutcome.raise "unreachable",
   RunOutcome.ok (RepOutput.list [RepElem.obj Option.none (some [1, 1, 9]) true]),
   fun _ => HttpOutcome.raise "unreachable"⟩

/-- A request as built by the test of the repository itself,
`TestGenAI.test_enhancement`. -/
def reqEnh : Request :=
  ⟨"tests/data/bird.jpg", "tests/data/output_genai_enhanced.jpg",
   some "make it sharper", [[4]]⟩

/-- C6 counterexample: for kind Enhance, a non-empty sequence whose
first element is a readable stream does not get that stream written (as
the claim requires for both kinds): the list is passed whole to the URL
downloader, which raises, and the local approximation is written
instead. -/
theorem enhance_sequence_counterexample :
    wEnhanceList.runEnhance =
      RunOutcome.ok (RepOutput.list [RepElem.obj Option.none (some [1, 1, 9]) true]) ∧
    (processEnhance wEnhanceList reqEnh).writes = [encodeImg (SHARPEN reqEnh.image)] ∧
    ¬ (processEnhance wEnhanceList reqEnh).writes = [[1, 1, 9]] ∧
    (processEnhance wEnhanceList reqEnh).fetches = [] := by decide

/-- C6 (amended): only the GhibliStyle path destructures sequences — a
non-empty sequence is handled exactly as its first element, and an empty
sequence advances past the provider; the Enhance path never takes a
first element: an empty sequence advances to the fallback, and a
non-empty one is passed whole to the URL downloader, which always
fails, so the written output is that of the local approximation. -/
theorem sequence_handling_amended (w : World) (s0 : S) (e : RepElem)
    (l : List RepElem) (req : Request)
    (hav : w.replicateAvailable = true)
    (ht : optTruthy w.replicateToken = true)
    (hout : w.runEnhance = RunOutcome.ok (RepOutput.list (e :: l))) :
    repGhibliHandle w s0 (RepOutput.list (e :: l)) =
      repGhibliHandle w s0 (RepOutput.elem e) ∧
    repGhibliHandle w s0 (RepOutput.list []) = (s0, false) ∧
    (enhanceHandle w s0 (RepOutput.list (e :: l))).2 = false ∧
    (enhanceHandle w s0 (RepOutput.list (e :: l))).1.writes = s0.writes ∧
    enhanceHandle w s0 (RepOutput.list []) = (s0, false) ∧
    (processEnhance w req).writes = [encodeImg (SHARPEN req.image)] := by
  refine ⟨?_, rfl, rfl, rfl, rfl, ?_⟩
  · cases he : e.isTruthy with
    | true => simp [repGhibliHandle, he]
    | false => simp [repGhibliHandle, handleResultElem, he]
  · unfold processEnhance enhancePhase
    simp [hav, ht, hout, enhanceHandle, afterDownload, downloadNonUrl,
      catchLog, logAdd, sAppend, mkTrace, enhanceMock, RepOutput.isTruthy,
      RepOutput.readAttr]

/-- C6 witness: the amended theorem applied at the concrete
list-returning enhancement world. -/
theorem sequence_handling_amended_witness :
    repGhibliHandle wEnhanceList emptyS
        (RepOutput.list [RepElem.obj Option.none (some [1, 1, 9]) true]) =
      repGhibliHandle wEnhanceList emptyS
        (RepOutput.elem (RepElem.obj Option.none (some [1, 1, 9]) true)) ∧
    repGhibliHandle wEnhanceList emptyS (RepOutput.list []) = (emptyS, false) ∧
    (enhanceHandle wEnhanceList emptyS
        (RepOutput.list [RepElem.obj Option.none (some [1, 1, 9]) true])).2 = false ∧
    (enhanceHandle wEnhanceList emptyS
        (RepOutput.list [RepElem.obj Option.none (some [1, 1, 9]) true])).1.writes =
      emptyS.writes ∧
    enhanceHandle wEnhanceList emptyS (RepOutput.list []) = (emptyS, false) ∧
    (processEnhance wEnhanceList reqEnh).writes = [encodeImg (SHARPEN reqEnh.image)] :=
  sequence_handling_amended wEnhanceList emptyS
    (RepElem.obj Option.none (some [1, 1, 9]) true) [] reqEnh
    rfl (by decide) rfl

/-- C7: every provider transport invocation made by
`GenAIGhibliConverter.process` carries the composed prompt: the fixed
style token `"ghibli style"` followed by `", "` and the user instruction
when one is present, and the style token alone when none is given. -/
theorem instruction_composition (w : World) (req : Request)
    (c : ProviderCall) (hc : c ∈ (processGhibli w req).calls) :
    promptOf c = some (ghibliPrompt req.user_text) ∧
    (∀ s, req.user_text = some s → s ≠ "" →
      ghibliPrompt req.user_text = "ghibli style" ++ ", " ++ s) ∧
    (req.user_text = Option.none → ghibliPrompt req.user_text = "ghibli style") := by
  refine ⟨?_, ?_, ?_⟩
  · unfold processGhibli at hc
    rcases hH : hfPhase w (ghibliPrompt req.user_text) with ⟨s1, d1⟩
    rw [hH] at hc
    have hfc := hfPhase_calls w (ghibliPrompt req.user_text)
    rw [hH] at hfc
    dsimp only at hfc
    cases d1 with
    | true =>
      simp only [mkTrace] at hc
      rcases hfc with hfc | hfc <;> rw [hfc] at hc
      · simp at hc
      · simp at hc
        subst hc
        rfl
    | false =>
      rcases hR : repGhibliPhase w (ghibliPrompt req.user_text) with ⟨s2, d2⟩
      rw [hR] at hc
      have hrc := repGhibliPhase_calls w (ghibliPrompt req.user_text)
      rw [hR] at hrc
      dsimp only at hrc
      cases d2 with
      | true =>
        simp only [mkTrace, sAppend, List.mem_append] at hc
        rcases hc with hc | hc
        · rcases hfc with hfc | hfc <;> rw [hfc] at hc
          · simp at hc
          · simp at hc
            subst hc
            rfl
        · rcases hrc with hrc | hrc <;> rw [hrc] at hc
          · simp at hc
          · simp at hc
            subst hc
            rfl
      | false =>
        simp only [mkTrace, sAppend, ghibliMock, List.append_nil,
          List.mem_append] at hc
        rcases hc with hc | hc
        · rcases hfc with hfc | hfc <;> rw [hfc] at hc
          · simp at hc
          · simp at hc
            subst hc
            rfl
        · rcases hrc with hrc | hrc <;> rw [hrc] at hc
          · simp at hc
          · simp at hc
            subst hc
            rfl
  · intro s hs hns
    rw [hs]
    simp [ghibliPrompt, optTruthy, hns]
  · intro h
    rw [h]
    rfl

/-- A world with only the Hugging Face credential, whose endpoint
returns a decodable image. -/
def wHfOnly : World :=
  ⟨false, Option.none, some "hf-token",
   fun _ => HttpOutcome.resp 200 [1, 1, 5],
   fun _ => RunOutcome.raise "unreachable",
   RunOutcome.raise "unreachable",
   fun _ => HttpOutcome.raise "unreachable"⟩

/-- A request with the user instruction used by the Ghibli test of
the repository. -/
def reqTotoro : Request :=
  ⟨"tests/data/bird.jpg", "tests/data/output_genai_ghibli.jpg",
   some "totoro style", [[4]]⟩

/-- C7 witness: the Hugging Face call recorded for instruction
`"totoro style"` carries exactly the prompt `"ghibli style, totoro
style"`. -/
theorem instruction_composition_witness :
    promptOf (ProviderCall.hfGhibli "ghibli style, totoro style") =
      some (ghibliPrompt reqTotoro.user_text) :=
  (instruction_composition wHfOnly reqTotoro
    (ProviderCall.hfGhibli "ghibli style, totoro style") (by decide)).1

/-- Observable behaviour of `GenAIEnhancement.process` depends on the
request only through the source image and the mock diagnostics of the
user text. -/
theorem processEnhance_obs (w : World) (r1 r2 : Request)
    (himg : r1.image = r2.image)
    (hm : ∀ a, mockLogs a r1.user_text = mockLogs a r2.user_text) :
    (processEnhance w r1).calls = (processEnhance w r2).calls ∧
    (processEnhance w r1).fetches = (processEnhance w r2).fetches ∧
    (processEnhance w r1).writes = (processEnhance w r2).writes ∧
    (processEnhance w r1).logs = (processEnhance w r2).logs := by
  unfold processEnhance
  rcases hE : enhancePhase w with ⟨s, d⟩
  cases d with
  | true => exact ⟨rfl, rfl, rfl, rfl⟩
  | false => simp [mkTrace, sAppend, enhanceMock, himg, hm]

/-- Observable behaviour of `GenAIGhibliConverter.process` depends on
the request only through the source image, the composed prompt and the
mock diagnostics of the user text. -/
theorem processGhibli_obs (w : World) (r1 r2 : Request)
    (himg : r1.image = r2.image)
    (hu : ghibliPrompt r1.user_text = ghibliPrompt r2.user_text)
    (hm : ∀ a, mockLogs a r1.user_text = mockLogs a r2.user_text) :
    (processGhibli w r1).calls = (processGhibli w r2).calls ∧
    (processGhibli w r1).fetches = (processGhibli w r2).fetches ∧
    (processGhibli w r1).writes = (processGhibli w r2).writes ∧
    (processGhibli w r1).logs = (processGhibli w r2).logs := by
  unfold processGhibli
  rw [hu]
  rcases hH : hfPhase w (ghibliPrompt r2.user_text) with ⟨s1, d1⟩
  cases d1 with
  | true => exact ⟨rfl, rfl, rfl, rfl⟩
  | false =>
    rcases hR : repGhibliPhase w (ghibliPrompt r2.user_text) with ⟨s2, d2⟩
    cases d2 with
    | true => exact ⟨rfl, rfl, rfl, rfl⟩
    | false => simp [mkTrace, sAppend, ghibliMock, himg, hm]

/-- C10: an empty-string user instruction (the CLI default for
`--prompt`) behaves exactly like an absent one: the whole observable
trace coincides for both kinds, the composed Ghibli prompt is exactly
`"ghibli style"` with no trailing separator, and the Enhance mock emits
no instruction line. -/
theorem empty_instruction_like_absent (k : Kind) (w : World)
    (p q : String) (img : Img) :
    (processKind k w ⟨p, q, some "", img⟩).calls =
      (processKind k w ⟨p, q, Option.none, img⟩).calls ∧
    (processKind k w ⟨p, q, some "", img⟩).fetches =
      (processKind k w ⟨p, q, Option.none, img⟩).fetches ∧
    (processKind k w ⟨p, q, some "", img⟩).writes =
      (processKind k w ⟨p, q, Option.none, img⟩).writes ∧
    (processKind k w ⟨p, q, some "", img⟩).logs =
      (processKind k w ⟨p, q, Option.none, img⟩).logs ∧
    ghibliPrompt (some "") = "ghibli style" ∧
    mockLogs "Image Enhancement" (some "") =
      ["Uploading image to GenAI Service...",
       "Calling GenAI service for: Image Enhancement"] := by
  cases k with
  | enhance =>
    obtain ⟨h1, h2, h3, h4⟩ :=
      processEnhance_obs w ⟨p, q, some "", img⟩ ⟨p, q, Option.none, img⟩
        rfl (fun _ => rfl)
    exact ⟨h1, h2, h3, h4, rfl, rfl⟩
  | ghibli =>
    obtain ⟨h1, h2, h3, h4⟩ :=
      processGhibli_obs w ⟨p, q, some "", img⟩ ⟨p, q, Option.none, img⟩
        rfl rfl (fun _ => rfl)
    exact ⟨h1, h2, h3, h4, rfl, rfl⟩

end GenAI

